import Mathlib

/-! Shallow embedding of the event-to-music mapping pipeline of the
api-sonification repository: the MIDI backend `src/synthesizer.py`
(class `APISynthesizer`) and the waveform backend
`src/apisonify/audio.py` (class `AudioSynthesizer`).

Modelling conventions:
* Python floats are modelled as exact rationals (`ℚ`); claims are settled
  at inputs where binary floating point evaluates exactly, so the rational
  model agrees with the source there.
* Python strings are modelled as `List Char`; the built-in `hash`, which
  is fixed within one process, is modelled as an arbitrary but fixed
  function `List Char → ℤ`.
* Python `int(x)` (truncation toward zero) is `pyInt`.
* numpy operations that can raise or produce undefined values
  (slice assignment with a broadcast mismatch, division by a zero
  maximum) return `Option`, with `none` marking exactly those inputs. -/

/-- Python `int(x)` on a real value: truncation toward zero. -/
def pyInt (q : ℚ) : ℤ := if 0 ≤ q then ⌊q⌋ else -⌊-q⌋

namespace APISynthesizer

/-- The `SCALES` class dictionary of `src/synthesizer.py` (lines 12-17). -/
def SCALES (k : String) : List ℤ :=
  if k = "major" then [0, 2, 4, 5, 7, 9, 11]
  else if k = "minor" then [0, 2, 3, 5, 7, 8, 10]
  else if k = "diminished" then [0, 2, 3, 5, 6, 8, 9]
  else if k = "chromatic" then [0, 1, 2, 3, 4, 5, 6]
  else []

/-- `_status_to_track` (synthesizer.py lines 47-56): track indexes are
`MELODY_TRACK = 0`, `HARMONY_TRACK = 1`, `BASS_TRACK = 2`, `DRUMS_TRACK = 3`. -/
def status_to_track (status : ℤ) : ℕ :=
  if 200 ≤ status ∧ status < 300 then 0
  else if 300 ≤ status ∧ status < 400 then 1
  else if 400 ≤ status ∧ status < 500 then 2
  else 3

/-- `_status_to_scale` (synthesizer.py lines 58-67). -/
def status_to_scale (status : ℤ) : List ℤ :=
  if 200 ≤ status ∧ status < 300 then SCALES "major"
  else if 300 ≤ status ∧ status < 400 then SCALES "minor"
  else if 400 ≤ status ∧ status < 500 then SCALES "diminished"
  else SCALES "chromatic"

/-- `_response_time_to_pitch` (synthesizer.py lines 69-82). The argument is
in seconds: the branches test `response_time < 0.1` and `response_time > 1.0`. -/
def response_time_to_pitch (rt : ℚ) : ℤ :=
  let offset : ℤ :=
    if rt < 1/10 then pyInt ((1/10 - rt) / (1/100)) + 12
    else if 1 < rt then -(pyInt ((rt - 1) / (1/2))) * 3
    else 0
  max 36 (min 84 (60 + offset))

/-- Python `path.split('?')[0]`: the longest prefix before the first `'?'`. -/
def stripQuery (p : List Char) : List Char := p.takeWhile (fun c => c ≠ '?')

/-- `_path_to_note` (synthesizer.py lines 84-90), parameterised by the
process-fixed string hash `h`. -/
def path_to_note (h : List Char → ℤ) (path : List Char) (scale : List ℤ) : ℤ :=
  60 + scale.getD ((h (stripQuery path)).natAbs % scale.length) 0

/-- A canonical event record as consumed by `add_event`: `response_time`
and `bytes` are read with `event.get(..., 0)`, so absence is `none`. -/
structure Event where
  status : ℤ
  path : List Char
  response_time : Option ℚ
  bytes : Option ℤ
deriving DecidableEq

/-- One MIDI note as passed to `self.midi.addNote(track, track, pitch,
self.current_time, duration, velocity)` (synthesizer.py lines 124-125). -/
structure Note where
  track : ℕ
  pitch : ℤ
  start : ℚ
  duration : ℚ
  velocity : ℕ
deriving DecidableEq, Inhabited

/-- The mutable state of one `APISynthesizer` instance: the configured
`base_tempo`, the sequencer clock `current_time`, the `event_count`
counter, and the accumulated note sequence. -/
structure State where
  base_tempo : ℤ
  current_time : ℚ
  event_count : ℕ
  notes : List Note
deriving DecidableEq

/-- A freshly constructed `APISynthesizer(base_tempo)`:
`current_time = 0.0`, `event_count = 0`, no notes. -/
def init (base_tempo : ℤ) : State :=
  { base_tempo := base_tempo, current_time := 0, event_count := 0, notes := [] }

/-- The note `add_event` computes from one event when the clock reads `t`
(synthesizer.py lines 94-121). -/
def mappedNote (h : List Char → ℤ) (e : Event) (t : ℚ) : Note :=
  { track := status_to_track e.status
    pitch :=
      if 0 < e.response_time.getD 0 then
        response_time_to_pitch (e.response_time.getD 0)
      else
        path_to_note h e.path (status_to_scale e.status)
    start := t
    duration :=
      if e.bytes.getD 0 < 1000 then 1/4
      else if e.bytes.getD 0 < 10000 then 1/2
      else 1
    velocity :=
      if e.status < 300 then 80
      else if e.status < 400 then 60
      else if e.status < 500 then 100
      else 120 }

/-- `add_event` (synthesizer.py lines 92-129): append the mapped note at
`current_time`, then advance `current_time` by the constant 0.5 and bump
`event_count`. -/
def add_event (h : List Char → ℤ) (e : Event) (s : State) : State :=
  { s with
    notes := s.notes ++ [mappedNote h e s.current_time]
    current_time := s.current_time + 1/2
    event_count := s.event_count + 1 }

/-- Feeding a list of events, in order, into a fresh synthesizer. -/
def run (h : List Char → ℤ) (base_tempo : ℤ) (es : List Event) : State :=
  es.foldl (fun s e => add_event h e s) (init base_tempo)

/-- The record returned by `get_stats` (synthesizer.py lines 137-143). -/
structure Stats where
  event_count : ℕ
  duration_seconds : ℚ
  tempo : ℤ
deriving DecidableEq

/-- `get_stats` (synthesizer.py lines 137-143): the source divides
`current_time` by the literal 2. -/
def get_stats (s : State) : Stats :=
  { event_count := s.event_count
    duration_seconds := s.current_time / 2
    tempo := s.base_tempo }

end APISynthesizer

namespace AudioSynthesizer

/-- `status_code_to_instrument` (audio.py lines 18-27). -/
def status_code_to_instrument (status : ℤ) : String :=
  if 200 ≤ status ∧ status < 300 then "major_melody"
  else if 400 ≤ status ∧ status < 500 then "minor_stab"
  else if 500 ≤ status ∧ status < 600 then "alarm"
  else "neutral"

/-- `response_time_to_pitch` (audio.py lines 29-39). The argument is in
milliseconds; the returned frequencies are 523.25, 261.63 and 130.81 Hz. -/
def response_time_to_pitch (response_ms : ℚ) : ℚ :=
  if response_ms < 100 then 52325/100
  else if response_ms < 500 then 26163/100
  else 13081/100

/-- `np.linspace(a, b, n)` for a one-dimensional float array. -/
def linspace (a b : ℚ) (n : ℕ) : List ℚ :=
  if n = 0 then []
  else if n = 1 then [a]
  else (List.range n).map (fun i : ℕ => a + (i : ℚ) * (b - a) / ((n : ℚ) - 1))

/-- numpy slice assignment `l[start:stop] = vals` for non-negative bounds:
succeeds when the value array matches the (clamped) slice length or has
length 1 (scalar broadcast); any other mismatch raises, modelled `none`. -/
def npSliceAssign (l : List ℚ) (start stop : ℕ) (vals : List ℚ) :
    Option (List ℚ) :=
  let s := min start l.length
  let t := min stop l.length
  let k := t - s
  if vals.length = k then some (l.take s ++ vals ++ l.drop (s + k))
  else if vals.length = 1 then
    some (l.take s ++ List.replicate k (vals.headD 0) ++ l.drop (s + k))
  else none

/-- `apply_adsr` (audio.py lines 46-66) for non-negative fractions (the
range the specification quantifies over). The release slice start models
Python `envelope[-release_samples:]`: with `release_samples = 0` the slice
is the whole array. -/
def apply_adsr (wave : List ℚ) (attack decay sustain release : ℚ) :
    Option (List ℚ) :=
  let n := wave.length
  let attack_samples := (pyInt (attack * n)).toNat
  let decay_samples := (pyInt (decay * n)).toNat
  let release_samples := (pyInt (release * n)).toNat
  let env0 : List ℚ := List.replicate n 1
  match npSliceAssign env0 0 attack_samples (linspace 0 1 attack_samples) with
  | none => none
  | some env1 =>
    match npSliceAssign env1 attack_samples (attack_samples + decay_samples)
        (linspace 1 sustain decay_samples) with
    | none => none
    | some env2 =>
      let rstart := if release_samples = 0 then 0 else n - release_samples
      match npSliceAssign env2 rstart n (linspace sustain 0 release_samples) with
      | none => none
      | some env3 => some (List.zipWith (· * ·) wave env3)

/-- The normalization step of `save_wav` (audio.py lines 92-93):
`np.int16(audio / np.max(np.abs(audio)) * 32767)`. `np.max` of an empty
array raises, and a zero maximum makes the division produce undefined
values (NaN cast to int16); both are modelled as `none`. -/
def normalize_for_wav (audio : List ℚ) : Option (List ℤ) :=
  match audio with
  | [] => none
  | _ =>
    let m := (audio.map (fun x => |x|)).foldr max 0
    if m = 0 then none
    else some (audio.map (fun x => pyInt (x / m * 32767)))

end AudioSynthesizer

namespace APISynthesizer

/-- A concrete instantiation of the process-fixed string hash, used to
evaluate closed scenarios. -/
def lenHash : List Char → ℤ := fun p => p.length

/-- First event of the round-trip scenario of the specification:
`{status: 200, response_time: 50, bytes: 500}`. -/
def ev1 : Event := ⟨200, "/".data, some 50, some 500⟩

/-- Second event of the round-trip scenario:
`{status: 404, response_time: 600, bytes: 20000}`. -/
def ev2 : Event := ⟨404, "/".data, some 600, some 20000⟩

/-- Third event of the round-trip scenario:
`{status: 500, response_time: 1200, bytes: 100}`. -/
def ev3 : Event := ⟨500, "/".data, some 1200, some 100⟩

/-- An event whose `response_time` field is absent. -/
def ev0 : Event := ⟨200, "/api".data, none, some 0⟩

/-- The sequence of notes `add_event` emits for a list of events when the
clock starts at `t`. -/
def seqNotes (h : List Char → ℤ) (t : ℚ) : List Event → List Note
  | [] => []
  | e :: es => mappedNote h e t :: seqNotes h (t + 1/2) es

lemma mappedNote_start (h : List Char → ℤ) (e : Event) (t : ℚ) :
    (mappedNote h e t).start = t := rfl

lemma foldl_add_event_notes (h : List Char → ℤ) (es : List Event) :
    ∀ s : State, (es.foldl (fun s e => add_event h e s) s).notes
      = s.notes ++ seqNotes h s.current_time es := by
  induction es with
  | nil => intro s; simp [seqNotes]
  | cons e es ih =>
    intro s
    rw [List.foldl_cons, ih (add_event h e s)]
    simp [add_event, seqNotes]

lemma foldl_add_event_time (h : List Char → ℤ) (es : List Event) :
    ∀ s : State, (es.foldl (fun s e => add_event h e s) s).current_time
      = s.current_time + es.length * (1/2 : ℚ) := by
  induction es with
  | nil => intro s; simp
  | cons e es ih =>
    intro s
    rw [List.foldl_cons, ih (add_event h e s)]
    simp only [add_event, List.length_cons]
    push_cast
    ring

lemma foldl_add_event_count (h : List Char → ℤ) (es : List Event) :
    ∀ s : State, (es.foldl (fun s e => add_event h e s) s).event_count
      = s.event_count + es.length := by
  induction es with
  | nil => intro s; simp
  | cons e es ih =>
    intro s
    rw [List.foldl_cons, ih (add_event h e s)]
    simp only [add_event, List.length_cons]
    omega

lemma foldl_add_event_tempo (h : List Char → ℤ) (es : List Event) :
    ∀ s : State, (es.foldl (fun s e => add_event h e s) s).base_tempo
      = s.base_tempo := by
  induction es with
  | nil => intro s; rfl
  | cons e es ih =>
    intro s
    rw [List.foldl_cons, ih (add_event h e s)]
    rfl

lemma seqNotes_length (h : List Char → ℤ) :
    ∀ (es : List Event) (t : ℚ), (seqNotes h t es).length = es.length := by
  intro es
  induction es with
  | nil => intro t; rfl
  | cons e es ih => intro t; simp [seqNotes, ih]

lemma seqNotes_getD_start (h : List Char → ℤ) (d : Note) :
    ∀ (es : List Event) (t : ℚ) (i : ℕ), i < es.length →
      ((seqNotes h t es).getD i d).start = t + i * (1/2 : ℚ) := by
  intro es
  induction es with
  | nil => intro t i hi; simp at hi
  | cons e es ih =>
    intro t i hi
    cases i with
    | zero => simp [seqNotes, mappedNote_start]
    | succ n =>
      have hn : n < es.length := by simpa using hi
      have hrec := ih (t + 1/2) n hn
      simp only [seqNotes, List.getD_cons_succ, hrec]
      push_cast
      ring

lemma seqNotes_mem (h : List Char → ℤ) :
    ∀ (es : List Event) (t : ℚ) (nt : Note), nt ∈ seqNotes h t es →
      ∃ e t', e ∈ es ∧ nt = mappedNote h e t' := by
  intro es
  induction es with
  | nil => intro t nt hnt; simp [seqNotes] at hnt
  | cons e es ih =>
    intro t nt hnt
    rcases (by simpa [seqNotes] using hnt : nt = mappedNote h e t ∨
        nt ∈ seqNotes h (t + 1/2) es) with heq | hmem
    · exact ⟨e, t, by simp, heq⟩
    · obtain ⟨e', t', he', heq⟩ := ih (t + 1/2) nt hmem
      exact ⟨e', t', by simp [he'], heq⟩

lemma response_time_to_pitch_bounds (rt : ℚ) :
    36 ≤ response_time_to_pitch rt ∧ response_time_to_pitch rt ≤ 84 := by
  unfold response_time_to_pitch
  exact ⟨le_max_left _ _, max_le (by norm_num) (min_le_left _ _)⟩

lemma scales_eval : SCALES "major" = [0, 2, 4, 5, 7, 9, 11] ∧
    SCALES "minor" = [0, 2, 3, 5, 7, 8, 10] ∧
    SCALES "diminished" = [0, 2, 3, 5, 6, 8, 9] ∧
    SCALES "chromatic" = [0, 1, 2, 3, 4, 5, 6] := by
  refine ⟨?_, ?_, ?_, ?_⟩ <;> simp [SCALES]

lemma scale_mem_bounds (status : ℤ) :
    ∀ d ∈ status_to_scale status, 0 ≤ d ∧ d ≤ 11 := by
  intro d hd
  unfold status_to_scale at hd
  split_ifs at hd <;>
    simp only [scales_eval.1, scales_eval.2.1, scales_eval.2.2.1,
      scales_eval.2.2.2] at hd <;>
    fin_cases hd <;> norm_num

lemma getD_bounds {l : List ℤ} (hl : ∀ x ∈ l, 0 ≤ x ∧ x ≤ 11) (i : ℕ) :
    0 ≤ l.getD i 0 ∧ l.getD i 0 ≤ 11 := by
  induction l generalizing i with
  | nil => simp
  | cons a l ih =>
    cases i with
    | zero => simpa using hl a (by simp)
    | succ n =>
      simpa using ih (fun x hx => hl x (by simp [hx])) n

lemma path_to_note_bounds (h : List Char → ℤ) (p : List Char) (status : ℤ) :
    60 ≤ path_to_note h p (status_to_scale status) ∧
      path_to_note h p (status_to_scale status) ≤ 71 := by
  unfold path_to_note
  have := getD_bounds (scale_mem_bounds status)
    ((h (stripQuery p)).natAbs % (status_to_scale status).length)
  constructor <;> linarith [this.1, this.2]

lemma mappedNote_pitch_bounds (h : List Char → ℤ) (e : Event) (t : ℚ) :
    36 ≤ (mappedNote h e t).pitch ∧ (mappedNote h e t).pitch ≤ 84 := by
  have hp : (mappedNote h e t).pitch =
      if 0 < e.response_time.getD 0 then
        response_time_to_pitch (e.response_time.getD 0)
      else path_to_note h e.path (status_to_scale e.status) := rfl
  rw [hp]
  split_ifs
  · exact response_time_to_pitch_bounds _
  · have := path_to_note_bounds h e.path e.status
    constructor <;> linarith [this.1, this.2]

lemma takeWhile_append_stop (f : Char → Bool) (hq : f '?' = false) :
    ∀ p q : List Char, List.takeWhile f (p ++ '?' :: q) = List.takeWhile f p := by
  intro p q
  induction p with
  | nil => simp [List.takeWhile_cons, hq]
  | cons c p ih =>
    by_cases hc : f c = true
    · simp [List.takeWhile_cons, hc, ih]
    · simp only [Bool.not_eq_true] at hc
      simp [List.takeWhile_cons, hc]

lemma stripQuery_append_query (p q : List Char) :
    stripQuery (p ++ '?' :: q) = stripQuery p := by
  unfold stripQuery
  exact takeWhile_append_stop _ (by decide) p q

end APISynthesizer

lemma AudioSynthesizer.linspace_length (a b : ℚ) (n : ℕ) :
    (AudioSynthesizer.linspace a b n).length = n := by
  unfold AudioSynthesizer.linspace
  split_ifs with h1 h2
  · simp [h1]
  · simp [h2]
  · rw [List.length_map, List.length_range]

open APISynthesizer

/-- C1: `add_event` assigns the new note `start_time = current_time` (the
clock value before the call), then advances `current_time` by the constant
0.5 regardless of the configured `base_tempo`; consequently for any two
notes `i < j` of a run from a fresh synthesizer, the start times are
strictly increasing (the increment 0.5 is non-zero). -/
theorem C1_sequencer_clock :
    (∀ (h : List Char → ℤ) (e : Event) (s : State),
        (add_event h e s).notes = s.notes ++ [mappedNote h e s.current_time] ∧
        (mappedNote h e s.current_time).start = s.current_time ∧
        (add_event h e s).current_time = s.current_time + 1/2) ∧
    (∀ (h : List Char → ℤ) (tempo : ℤ) (es : List Event) (i j : ℕ),
        i < j → j < (run h tempo es).notes.length →
        ((run h tempo es).notes.getD i default).start <
          ((run h tempo es).notes.getD j default).start) := by
  constructor
  · exact fun h e s => ⟨rfl, rfl, rfl⟩
  · intro h tempo es i j hij hj
    have hnotes : (run h tempo es).notes = seqNotes h 0 es := by
      rw [run, foldl_add_event_notes]
      simp [init]
    rw [hnotes] at hj ⊢
    rw [seqNotes_length] at hj
    rw [seqNotes_getD_start h default es 0 i (hij.trans hj),
      seqNotes_getD_start h default es 0 j hj]
    have hq : (i : ℚ) < j := by exact_mod_cast hij
    have := mul_lt_mul_of_pos_right hq (show (0:ℚ) < 1/2 by norm_num)
    linarith

/-- C1 witness: concrete instance of the clock contract and of strict
start-time monotonicity on a two-event run. -/
theorem C1_sequencer_clock_witness :
    (add_event lenHash ev1 (init 120)).current_time
      = (init 120).current_time + 1/2 ∧
    ((run lenHash 120 [ev1, ev2]).notes.getD 0 default).start <
      ((run lenHash 120 [ev1, ev2]).notes.getD 1 default).start :=
  ⟨(C1_sequencer_clock.1 lenHash ev1 (init 120)).2.2,
    C1_sequencer_clock.2 lenHash 120 [ev1, ev2] 0 1 (by norm_num)
      (by norm_num [run, init, add_event])⟩

/-- C2 counterexample: the claim says every status outside the four bands
maps to a neutral/default category, and `[300,400)` maps to redirect.  In
the source, `_status_to_track 100` lands on the same track as a 500
(`DRUMS_TRACK = 3`, the server-error track, not a neutral default), and
`status_code_to_instrument 301` returns the default `"neutral"` (the same
category as 100), not a redirect category. -/
theorem C2_status_category_counterexample :
    status_to_track 100 = status_to_track 500 ∧
    AudioSynthesizer.status_code_to_instrument 301
      = AudioSynthesizer.status_code_to_instrument 100 ∧
    AudioSynthesizer.status_code_to_instrument 301 = "neutral" := by
  refine ⟨by norm_num [status_to_track], ?_, ?_⟩ <;>
    simp [AudioSynthesizer.status_code_to_instrument]

/-- C2 amended: both mappings are total over all integer statuses and never
raise, with these bands: `_status_to_track` sends `[200,300)` to the melody
(success) track 0, `[300,400)` to harmony (redirect) 1, `[400,500)` to bass
(client-error) 2, and every other integer — including all of `[500,600)`,
plus e.g. 100, 0, 999 — to drums (server-error) 3;
`status_code_to_instrument` sends `[200,300)` to `"major_melody"`,
`[400,500)` to `"minor_stab"`, `[500,600)` to `"alarm"`, and every other
integer — including all of `[300,400)` — to `"neutral"`. -/
theorem C2_status_category_amended : ∀ status : ℤ,
    (200 ≤ status → status < 300 → status_to_track status = 0 ∧
      AudioSynthesizer.status_code_to_instrument status = "major_melody") ∧
    (300 ≤ status → status < 400 → status_to_track status = 1 ∧
      AudioSynthesizer.status_code_to_instrument status = "neutral") ∧
    (400 ≤ status → status < 500 → status_to_track status = 2 ∧
      AudioSynthesizer.status_code_to_instrument status = "minor_stab") ∧
    (500 ≤ status → status < 600 → status_to_track status = 3 ∧
      AudioSynthesizer.status_code_to_instrument status = "alarm") ∧
    (status < 200 ∨ 600 ≤ status → status_to_track status = 3 ∧
      AudioSynthesizer.status_code_to_instrument status = "neutral") := by
  intro status
  unfold status_to_track AudioSynthesizer.status_code_to_instrument
  refine ⟨?_, ?_, ?_, ?_, ?_⟩ <;> intros <;> split_ifs <;>
    first | omega | simp_all

/-- C2 witness: status 100 at concrete inputs. -/
theorem C2_status_category_witness :
    status_to_track 100 = 3 ∧
    AudioSynthesizer.status_code_to_instrument 100 = "neutral" :=
  (C2_status_category_amended 100).2.2.2.2 (Or.inl (by norm_num))

/-- C3 counterexample: for the discrete-pitch representation
(`_response_time_to_pitch` of synthesizer.py, argument in seconds), two
response times strictly below 100ms (0s and 0.05s) give different pitches
82 and 77, so the fast band has no single fixed value; moreover for the
same physical input 600ms, the continuous backend returns the slow-band
frequency 130.81 while the discrete backend (600ms = 0.6s) takes its middle
branch and returns 60, so the two backends do not band the input
identically. -/
theorem C3_pitch_bands_counterexample :
    APISynthesizer.response_time_to_pitch 0 = 82 ∧
    APISynthesizer.response_time_to_pitch (1/20) = 77 ∧
    AudioSynthesizer.response_time_to_pitch 600 = 13081/100 ∧
    APISynthesizer.response_time_to_pitch (3/5) = 60 := by
  refine ⟨?_, ?_, ?_, ?_⟩ <;>
    norm_num [APISynthesizer.response_time_to_pitch,
      AudioSynthesizer.response_time_to_pitch, pyInt, min_def, max_def]

/-- C3 amended: only the continuous-frequency backend
(`response_time_to_pitch` of audio.py) is piecewise-constant over exactly
three bands with closed-open boundaries: strictly below 100ms it returns
523.25, at exactly 100ms (and up to 500ms) it returns the medium value
261.63, and from 500ms on it returns 130.81.  The discrete backend uses
different thresholds (0.1s and 1.0s) and varies inside its outer bands. -/
theorem C3_pitch_bands_amended : ∀ t : ℚ,
    (t < 100 → AudioSynthesizer.response_time_to_pitch t = 52325/100) ∧
    (100 ≤ t → t < 500 → AudioSynthesizer.response_time_to_pitch t = 26163/100) ∧
    (500 ≤ t → AudioSynthesizer.response_time_to_pitch t = 13081/100) := by
  intro t
  unfold AudioSynthesizer.response_time_to_pitch
  refine ⟨?_, ?_, ?_⟩ <;> intros <;> split_ifs <;> first | rfl | linarith

/-- C3 witness: the boundary input 100ms belongs to the medium band. -/
theorem C3_pitch_bands_witness :
    AudioSynthesizer.response_time_to_pitch 100 = 26163/100 :=
  (C3_pitch_bands_amended 100).2.1 (le_refl 100) (by norm_num)

/-- C4 counterexample: feeding the three round-trip events into a fresh
sequencer, every note — including note 1 (`status 200, response_time 50`) —
gets pitch 36, the bottom clamp produced by the slow branch, because
`_response_time_to_pitch` reads its argument in seconds and `50 > 1.0`.
The claim expects note 1 to carry a high-band (fast) pitch, which in the
source is the range 72-84 reached only for response times below 0.1. -/
theorem C4_roundtrip_counterexample :
    (run lenHash 120 [ev1, ev2, ev3]).notes.map Note.pitch = [36, 36, 36] := by
  norm_num [run, init, add_event, mappedNote, ev1, ev2, ev3,
    APISynthesizer.response_time_to_pitch, pyInt, min_def, max_def,
    status_to_track, status_to_scale]

/-- C4 amended: the three round-trip events yield note 1 on the success
track 0 with the clamped slow pitch 36 (not a fast-band pitch: response
time 50 is read as 50 seconds) and short duration 0.25, note 2 on the
client-error track 2 with slow pitch 36 and long duration 1.0, note 3 on
the server-error track 3 with slow pitch 36 and short duration 0.25;
`event_count = 3` and the start times 0, 0.5, 1.0 strictly increase. -/
theorem C4_roundtrip_amended :
    run lenHash 120 [ev1, ev2, ev3] =
      ⟨120, 3/2, 3, [⟨0, 36, 0, 1/4, 80⟩, ⟨2, 36, 1/2, 1, 100⟩,
        ⟨3, 36, 1, 1/4, 120⟩]⟩ ∧
    get_stats (run lenHash 120 [ev1, ev2, ev3]) = ⟨3, 3/4, 120⟩ := by
  constructor <;>
    norm_num [run, init, add_event, mappedNote, ev1, ev2, ev3, get_stats,
      APISynthesizer.response_time_to_pitch, pyInt, min_def, max_def,
      status_to_track, status_to_scale]

/-- C5: the claim states `apply_adsr` never raises and preserves the buffer
length for all attack/decay/release fractions in `[0,1]`; the code violates
it.  With `release = 0` the release assignment targets
`envelope[-0:]` — the whole buffer — with an empty ramp and raises a
broadcast `ValueError` for any non-empty wave; with `attack = 0.5` and
`decay = 1` the decay segment overruns the buffer and its assignment
raises as well.  Both failing fraction combinations lie in `[0,1]`. -/
theorem C5_adsr_raises :
    AudioSynthesizer.apply_adsr (List.replicate 4 1) 0 0 (7/10) 0 = none ∧
    AudioSynthesizer.apply_adsr (List.replicate 4 1) (1/4) 1 (7/10) (1/4)
      = none := by
  constructor <;>
    norm_num [AudioSynthesizer.apply_adsr, AudioSynthesizer.npSliceAssign,
      AudioSynthesizer.linspace_length, pyInt, List.replicate, min_def,
      show (0 : ℤ).toNat = 0 from rfl, show (1 : ℤ).toNat = 1 from rfl,
      show (4 : ℤ).toNat = 4 from rfl]

/-- C6 counterexample: for a synthesizer configured with `base_tempo = 60`
and one event, `get_stats` reports `duration_seconds = 0.25`
(`current_time / 2`, hardcoded), while the claim's formula
`current_time / (tempo_bpm / 60)` gives `0.5 / 1 = 0.5`. -/
theorem C6_stats_counterexample :
    get_stats (add_event lenHash ev1 (init 60)) = ⟨1, 1/4, 60⟩ ∧
    (add_event lenHash ev1 (init 60)).current_time / ((60 : ℚ) / 60) = 1/2 ∧
    (1/4 : ℚ) ≠ 1/2 := by
  refine ⟨?_, ?_, by norm_num⟩ <;> norm_num [get_stats, add_event, init]

/-- C6 amended: `get_stats` returns `event_count` equal to the number of
`add_event` calls, `tempo` equal to the configured tempo, and
`duration_seconds = current_time / 2` — a conversion hardcoded for 120 BPM
that ignores the configured tempo, so after `n` events it is `n * 0.25`
for every tempo.  The call is read-only (it is a pure projection of the
state in this embedding, mutating nothing). -/
theorem C6_stats_amended :
    ∀ (h : List Char → ℤ) (tempo : ℤ) (es : List Event),
      get_stats (run h tempo es)
        = ⟨es.length, (es.length : ℚ) * (1/4), tempo⟩ := by
  intro h tempo es
  have h1 := foldl_add_event_count h es (init tempo)
  have h2 := foldl_add_event_time h es (init tempo)
  have h3 := foldl_add_event_tempo h es (init tempo)
  simp only [get_stats, run, Stats.mk.injEq]
  refine ⟨?_, ?_, ?_⟩
  · rw [h1]; simp [init]
  · rw [h2]; simp [init]; ring
  · rw [h3]; rfl

/-- C7: the claim states the normalization step of `save_wav` guards the
zero-amplitude case by substituting a silent buffer; the code has no such
guard: for an all-zero buffer `np.max(np.abs(audio))` is 0 and the source
divides by it, yielding undefined output (`none` in this model) instead of
a silent buffer. -/
theorem C7_normalize_divzero :
    AudioSynthesizer.normalize_for_wav (List.replicate 8 0) = none := by
  norm_num [AudioSynthesizer.normalize_for_wav, List.replicate]

/-- C8: `_path_to_note` strips the query string before hashing, so for any
path `p`, query `q` and non-empty scale, the note of `p ++ "?" ++ q` equals
the note of `p`; determinism within one process is definitional here since
the process hash is modelled as a fixed function. -/
theorem C8_path_note : ∀ (h : List Char → ℤ) (p q : List Char)
    (scale : List ℤ), scale ≠ [] →
    path_to_note h (p ++ '?' :: q) scale = path_to_note h p scale := by
  intro h p q scale _
  unfold path_to_note
  rw [stripQuery_append_query]

/-- C8 witness: a concrete path with a query suffix maps to the same note
as the bare path, for a non-constant hash. -/
theorem C8_path_note_witness :
    path_to_note lenHash ('a' :: '?' :: 'b' :: []) (SCALES "major")
      = path_to_note lenHash ['a'] (SCALES "major") :=
  C8_path_note lenHash ['a'] ['b'] (SCALES "major") (by simp [SCALES])

/-- C9: in `add_event`, when the `response_time` field is absent, zero or
negative, the note pitch comes from `_path_to_note` on the event path; when
it is strictly positive the pitch comes solely from
`_response_time_to_pitch` and the path has no influence; the mapped note is
exactly the one `add_event` appends. -/
theorem C9_pitch_source : ∀ (h : List Char → ℤ) (e : Event) (s : State),
    ((e.response_time = none ∨ ∃ rt, e.response_time = some rt ∧ rt ≤ 0) →
      (mappedNote h e s.current_time).pitch
        = path_to_note h e.path (status_to_scale e.status)) ∧
    (∀ rt : ℚ, e.response_time = some rt → 0 < rt →
      (mappedNote h e s.current_time).pitch
        = APISynthesizer.response_time_to_pitch rt ∧
      ∀ p2 : List Char, (mappedNote h { e with path := p2 } s.current_time).pitch
        = (mappedNote h e s.current_time).pitch) ∧
    (add_event h e s).notes = s.notes ++ [mappedNote h e s.current_time] := by
  intro h e s
  refine ⟨?_, ?_, rfl⟩
  · rintro (hn | ⟨rt, hrt, hle⟩)
    · simp [mappedNote, hn]
    · simp [mappedNote, hrt, not_lt.mpr hle]
  · intro rt hrt hpos
    constructor
    · simp [mappedNote, hrt, hpos]
    · intro p2
      simp [mappedNote, hrt, hpos]

/-- C9 witness: an event with `response_time` absent takes its pitch from
the path hash, and one with `response_time = 50 > 0` takes it from the
response-time mapping. -/
theorem C9_pitch_source_witness :
    (mappedNote lenHash ev0 (init 120).current_time).pitch
      = path_to_note lenHash ev0.path (status_to_scale ev0.status) ∧
    (mappedNote lenHash ev1 (init 120).current_time).pitch
      = APISynthesizer.response_time_to_pitch 50 :=
  ⟨(C9_pitch_source lenHash ev0 (init 120)).1 (Or.inl rfl),
    ((C9_pitch_source lenHash ev1 (init 120)).2.1 50 rfl (by norm_num)).1⟩

/-- C10: every note emitted by `add_event` has MIDI pitch in `[36, 84]`:
the response-time branch clamps its result to `[36, 84]`, the scale lists
only hold degrees in `[0, 11]` (so the path branch yields `60 + degree ∈
[60, 71]`), and hence every note of any run from a fresh synthesizer is
bounded. -/
theorem C10_pitch_bounds :
    (∀ rt : ℚ, 36 ≤ APISynthesizer.response_time_to_pitch rt ∧
      APISynthesizer.response_time_to_pitch rt ≤ 84) ∧
    (∀ status : ℤ, ∀ d ∈ status_to_scale status, 0 ≤ d ∧ d ≤ 11) ∧
    (∀ (h : List Char → ℤ) (tempo : ℤ) (es : List Event),
      ∀ nt ∈ (run h tempo es).notes, 36 ≤ nt.pitch ∧ nt.pitch ≤ 84) := by
  refine ⟨response_time_to_pitch_bounds, scale_mem_bounds, ?_⟩
  intro h tempo es nt hnt
  have hnotes : (run h tempo es).notes = seqNotes h 0 es := by
    rw [run, foldl_add_event_notes]
    simp [init]
  rw [hnotes] at hnt
  obtain ⟨e, t', _, rfl⟩ := seqNotes_mem h es 0 nt hnt
  exact mappedNote_pitch_bounds h e t'

/-- C10 witness: concrete instances of each conjunct, with the membership
hypotheses discharged on a one-event run. -/
theorem C10_pitch_bounds_witness :
    (36 ≤ APISynthesizer.response_time_to_pitch 50 ∧
      APISynthesizer.response_time_to_pitch 50 ≤ 84) ∧
    (0 ≤ (0 : ℤ) ∧ (0 : ℤ) ≤ 11) ∧
    (36 ≤ (mappedNote lenHash ev1 0).pitch ∧
      (mappedNote lenHash ev1 0).pitch ≤ 84) :=
  ⟨C10_pitch_bounds.1 50,
    C10_pitch_bounds.2.1 200 0 (by simp [status_to_scale, SCALES]),
    C10_pitch_bounds.2.2 lenHash 120 [ev1] (mappedNote lenHash ev1 0)
      (by simp [run, add_event, init])⟩
